import Mathlib

/-!
Shallow embedding of the soundboard REST backend (`src/app.js`).

The program is an Express application whose handlers orchestrate three
external collaborators: a text-to-speech client (`ttsClient`), Google
Cloud Storage (`bucket`), and a MySQL database accessed through
Sequelize.  Each handler is embedded as a pure Lean function; the
outcome of every external call the handler inspects is passed in as an
explicit `Except`/`Bool` parameter, and the relational store is a list
of rows threaded through the handler.  Side effects that the claims
talk about (synthesis calls, uploads, inserts, object deletes, row
destroys) are reported in an explicit effect trace.
-/

/-- JavaScript falsiness of an optional string field of `req.body`:
`undefined` (missing) and the empty string are falsy. -/
def strFalsy : Option String → Bool
  | none => true
  | some s => s == ""

/-- JavaScript falsiness of an optional numeric field of `req.body`:
`undefined` (missing) and `0` are falsy. -/
def numFalsy : Option Int → Bool
  | none => true
  | some r => r == 0

/-- One persisted `Soundboard` row.  The attribute set comes from the
`sequelize.define("Soundboard", ...)` call (app.js lines 55-77): `id`,
`text`, `audioUrl`, `fileName`, `createdByEmail`, plus the
`createdAt`/`updatedAt` timestamps Sequelize manages.  There is no
`title` attribute in the schema.  Timestamps are modelled as naturals. -/
structure SoundboardRow where
  id : String
  text : String
  audioUrl : String
  fileName : String
  createdByEmail : String
  createdAt : Nat
  updatedAt : Nat
deriving Repr, DecidableEq

/-- The attribute names of the Soundboard model, in the order they are
serialized: the five declared attributes plus the two automatic
timestamps. -/
def soundboardAttributes : List String :=
  ["id", "text", "audioUrl", "fileName", "createdByEmail", "createdAt", "updatedAt"]

/-- `soundboard.toJSON()`: the row serialized as attribute/value pairs.
Only schema attributes appear. -/
def SoundboardRow.toJSON (r : SoundboardRow) : List (String × String) :=
  [("id", r.id), ("text", r.text), ("audioUrl", r.audioUrl),
   ("fileName", r.fileName), ("createdByEmail", r.createdByEmail),
   ("createdAt", toString r.createdAt), ("updatedAt", toString r.updatedAt)]

/-- The object passed to `Soundboard.create` by the POST handler
(app.js lines 168-174): it carries `text`, `title`, `audioUrl`,
`fileName` and `createdByEmail`. -/
structure SoundboardCreateInput where
  text : String
  title : String
  audioUrl : String
  fileName : String
  createdByEmail : String

/-- `Soundboard.create(input)`: Sequelize builds the new row from the
model's declared attributes only, so the `title` key of the input
object, which is not a schema attribute, is discarded; `id` gets a
fresh UUID default and the two timestamps are set to the current time. -/
def Soundboard.create (newId : String) (now : Nat) (inp : SoundboardCreateInput) :
    SoundboardRow :=
  { id := newId
    text := inp.text
    audioUrl := inp.audioUrl
    fileName := inp.fileName
    createdByEmail := inp.createdByEmail
    createdAt := now
    updatedAt := now }

/-- JavaScript `String.prototype.split` with a one-character separator:
`splitChar sep l` cuts `l` at every occurrence of `sep`.  The result is
always nonempty (`"".split(sep)` is `[""]`). -/
def splitChar (sep : Char) : List Char → List (List Char)
  | [] => [[]]
  | c :: cs =>
    match splitChar sep cs with
    | [] => [[]]
    | r :: rs => if c = sep then [] :: r :: rs else (c :: r) :: rs

/-- `url.split("/").pop()`: the final path segment of a URL, used by the
GET and DELETE soundboard handlers to recover the storage object key
from `audioUrl` (app.js lines 209 and 254). -/
def derivedObjectKey (url : String) : String :=
  String.mk ((splitChar (Char.ofNat 47) url.data).getLastD [])

/-- The external-call outcomes a soundboard-creation request observes:
the text-to-speech response for a given text, the result of
`file.save` for a given object key, and the bucket name configured in
the environment. -/
structure GcpDeps where
  tts : String → Except String (List Nat)
  save : String → List Nat → Except String Unit
  bucketName : String

/-- `generateSpeech(text)` (app.js lines 116-129): forwards the text to
the TTS client with the fixed id-ID neutral MP3 voice configuration and
returns the audio bytes, wrapping any client error in a new message. -/
def generateSpeech (deps : GcpDeps) (text : String) : Except String (List Nat) :=
  match deps.tts text with
  | .ok audioContent => .ok audioContent
  | .error e => .error ("Error generating speech: " ++ e)

/-- `uploadToGCS(buffer, filename)` (app.js lines 131-149): saves the
buffer under `filename` in the bucket and on success returns the public
URL built from the bucket name and the object key. -/
def uploadToGCS (deps : GcpDeps) (buffer : List Nat) (filename : String) :
    Except String String :=
  match deps.save filename buffer with
  | .ok _ =>
      .ok ("https://storage.googleapis.com/" ++ deps.bucketName ++ "/" ++ filename)
  | .error e => .error ("Error uploading to Google Cloud Storage: " ++ e)

/-- The externally visible side effects of the soundboard handlers. -/
inductive Effect
  | synthCall (text : String)
  | uploadCall (key : String)
  | insertCall
  | objectDelete (key : String)
  | rowDestroy (id : String)
deriving Repr, DecidableEq

/-- `POST /soundboards` (app.js lines 153-187).  Validates the three
body fields against JavaScript falsiness; then synthesizes speech,
uploads the audio under a fresh `<uuid>.mp3` key, and inserts the row.
Any thrown error is caught and answered with status 500; the store is
returned unchanged on every failure path.  The result is the HTTP
status, the resulting row list, and the trace of external side effects
attempted.  The success of the `Soundboard.create` insert is the
explicit `insertRes` parameter; `uuid` is the value `uuidv4()` returns
and `newId`/`now` are the fresh row id and the current time. -/
def postSoundboards (deps : GcpDeps) (uuid : String) (insertRes : Except String Unit)
    (newId : String) (now : Nat)
    (title text email : Option String) (db : List SoundboardRow) :
    Nat × List SoundboardRow × List Effect :=
  if strFalsy title || strFalsy text || strFalsy email then
    (400, db, [])
  else
    let t := text.getD ""
    match generateSpeech deps t with
    | .error _ => (500, db, [.synthCall t])
    | .ok audioBuffer =>
      let fileName := uuid ++ ".mp3"
      match uploadToGCS deps audioBuffer fileName with
      | .error _ => (500, db, [.synthCall t, .uploadCall fileName])
      | .ok audioUrl =>
        match insertRes with
        | .error _ => (500, db, [.synthCall t, .uploadCall fileName, .insertCall])
        | .ok _ =>
          let soundboard := Soundboard.create newId now
            { text := t, title := title.getD "", audioUrl := audioUrl,
              fileName := fileName, createdByEmail := email.getD "" }
          (201, db ++ [soundboard], [.synthCall t, .uploadCall fileName, .insertCall])

/-- Ordering used by `Soundboard.findAll({order: [["createdAt","DESC"]]})`:
later `createdAt` first. -/
def createdDesc (a b : SoundboardRow) : Prop := b.createdAt ≤ a.createdAt

instance : DecidableRel createdDesc := fun a b => Nat.decLe b.createdAt a.createdAt

instance : IsTotal SoundboardRow createdDesc :=
  ⟨fun a b => le_total b.createdAt a.createdAt⟩

instance : IsTrans SoundboardRow createdDesc :=
  ⟨fun _ _ _ h1 h2 => le_trans h2 h1⟩

/-- `Soundboard.findAll({where: {createdByEmail: email}, order:
[["createdAt", "DESC"]]})` (app.js lines 194-197): the rows owned by
`email`, sorted by `createdAt` descending. -/
def findAllByEmailDesc (db : List SoundboardRow) (email : String) :
    List SoundboardRow :=
  List.insertionSort createdDesc (db.filter (fun r => r.createdByEmail == email))

/-- One element of the GET response: the spread `{...soundboard.toJSON(),
fileExists}` keeps the whole row and adds the availability flag. -/
structure EnrichedSoundboard where
  row : SoundboardRow
  fileExists : Bool
deriving Repr, DecidableEq

/-- Serialization of an enriched entry: the row's JSON plus the added
`fileExists` key. -/
def EnrichedSoundboard.toJSON (e : EnrichedSoundboard) : List (String × String) :=
  e.row.toJSON ++ [("fileExists", toString e.fileExists)]

/-- The per-row enrichment step of `GET /soundboards/:email` (app.js
lines 208-226): re-derive the object key from `audioUrl`, ask storage
whether it exists; if the check itself throws, the error is logged and
the row is kept with `fileExists: false`. -/
def validateRow (check : String → Except String Bool) (sb : SoundboardRow) :
    EnrichedSoundboard :=
  match check (derivedObjectKey sb.audioUrl) with
  | .ok ex => { row := sb, fileExists := ex }
  | .error _ => { row := sb, fileExists := false }

/-- `GET /soundboards/:email` (app.js lines 189-240): fetch the owner's
rows ordered by `createdAt` descending; an empty result answers 404;
otherwise every row is enriched with its storage-existence flag (the
`Promise.all` over `soundboards.map` keeps the fetched order) and the
list is answered with 200.  `check` is the outcome of `file.exists()`
for a given object key.  The handler is modelled on the paths where the
database query itself returns; its failure is the route's catch-all
500 and is not involved in any claim. -/
def getSoundboards (check : String → Except String Bool) (email : String)
    (db : List SoundboardRow) : Nat × List EnrichedSoundboard :=
  let soundboards := findAllByEmailDesc db email
  if soundboards.length = 0 then
    (404, [])
  else
    (200, soundboards.map (validateRow check))

/-- `DELETE /soundboards/:id` (app.js lines 242-275): look the row up by
primary key; absent answers 404 with nothing touched.  Otherwise the
object named by the final segment of `audioUrl` is deleted from storage
inside its own try/catch whose failure is only logged, and the row is
destroyed unconditionally afterwards.  `delObj` is the outcome of
`file.delete()` for a given key. -/
def deleteSoundboard (delObj : String → Except String Unit) (id : String)
    (db : List SoundboardRow) : Nat × List SoundboardRow × List Effect :=
  match db.find? (fun r => r.id == id) with
  | none => (404, db, [])
  | some soundboard =>
    let key := derivedObjectKey soundboard.audioUrl
    match delObj key with
    | .ok _ =>
        (200, db.eraseP (fun r => r.id == id),
         [.objectDelete key, .rowDestroy soundboard.id])
    | .error _ =>
        (200, db.eraseP (fun r => r.id == id),
         [.objectDelete key, .rowDestroy soundboard.id])

/-- Outcome of an Express handler that takes `next`: either it responded
itself or it forwarded an error to the error-handling middleware. -/
inductive HandlerOutcome
  | responded (status : Nat)
  | forwarded (errMsg : String)
deriving Repr, DecidableEq

/-- `GET /history/:id` (app.js lines 368-404).  The body's first data
access evaluates `History.findByPk(id)`, but no binding named `History`
exists anywhere in app.js — the history table is otherwise accessed
through raw SQL — so evaluating the identifier throws a ReferenceError
before either the 200 or the 404 branch can be reached, and the
surrounding catch forwards that error to `next`. -/
def getHistoryById (id : String) : HandlerOutcome :=
  HandlerOutcome.forwarded "History is not defined"

/-- The error-handling middleware (app.js lines 689-695): every
forwarded error is answered with status 500. -/
def middlewareStatus : HandlerOutcome → Nat
  | .responded s => s
  | .forwarded _ => 500

/-- `POST /feedback` (app.js lines 569-609): `!comment || !rating`
answers 400 (so a missing rating and the falsy rating `0` are both
rejected there), then a rating outside `1..4` answers 400; otherwise
the row is inserted, 201 on success and 500 if the insert throws.
`insertRes` is the outcome of the raw INSERT, carrying the new row id. -/
def postFeedback (insertRes : Except String Nat) (comment : Option String)
    (rating : Option Int) : Nat :=
  if strFalsy comment || numFalsy rating then
    400
  else
    match rating with
    | none => 400
    | some r =>
      if r < 1 || r > 4 then
        400
      else
        match insertRes with
        | .ok _ => 201
        | .error _ => 500

/-! Helper lemmas about `splitChar` and the derived object key. -/

/-- `splitChar` never returns the empty list (JavaScript `split` always
returns at least one component). -/
theorem splitChar_ne_nil (sep : Char) : ∀ l : List Char, splitChar sep l ≠ []
  | [] => by simp [splitChar]
  | c :: cs => by
    unfold splitChar
    cases h : splitChar sep cs with
    | nil => simp
    | cons r rs => by_cases hc : c = sep <;> simp [hc]

/-- Splitting a list that does not contain the separator yields the list
itself as the only component. -/
theorem splitChar_of_not_mem (sep : Char) :
    ∀ l : List Char, sep ∉ l → splitChar sep l = [l]
  | [], _ => rfl
  | c :: cs, h => by
    have hc : c ≠ sep := fun he => h (he ▸ List.mem_cons_self c cs)
    have hcs : sep ∉ cs := fun hm => h (List.mem_cons_of_mem c hm)
    unfold splitChar
    rw [splitChar_of_not_mem sep cs hcs]
    simp [hc]

/-- A list containing the separator splits into at least two components. -/
theorem two_le_length_splitChar (sep : Char) (ys : List Char) :
    ∀ xs : List Char, 2 ≤ (splitChar sep (xs ++ sep :: ys)).length
  | [] => by
    show 2 ≤ (splitChar sep (sep :: ys)).length
    unfold splitChar
    cases h : splitChar sep ys with
    | nil => exact absurd h (splitChar_ne_nil sep ys)
    | cons r rs => simp
  | x :: xs => by
    show 2 ≤ (splitChar sep (x :: (xs ++ sep :: ys))).length
    unfold splitChar
    cases h : splitChar sep (xs ++ sep :: ys) with
    | nil => exact absurd h (splitChar_ne_nil sep _)
    | cons r rs =>
      have ih : 2 ≤ (splitChar sep (xs ++ sep :: ys)).length :=
        two_le_length_splitChar sep ys xs
      rw [h] at ih
      by_cases hx : x = sep <;> simp_all

/-- For a nonempty list the default value of `getLastD` is irrelevant. -/
theorem getLastD_irrel {α : Type} (l : List α) (hne : l ≠ []) (a b : α) :
    l.getLastD a = l.getLastD b := by
  cases l with
  | nil => exact absurd rfl hne
  | cons c t => rw [List.getLastD_cons, List.getLastD_cons]

/-- The last component of a split at the final separator occurrence is
the suffix after that separator: this is how `split("/").pop()` recovers
the object key from a URL whose key contains no slash. -/
theorem getLastD_splitChar_append (sep : Char) (ys : List Char) (hys : sep ∉ ys) :
    ∀ xs : List Char, (splitChar sep (xs ++ sep :: ys)).getLastD [] = ys
  | [] => by
    show (splitChar sep (sep :: ys)).getLastD [] = ys
    unfold splitChar
    rw [splitChar_of_not_mem sep ys hys]
    simp [List.getLastD_cons]
  | x :: xs => by
    show (splitChar sep (x :: (xs ++ sep :: ys))).getLastD [] = ys
    unfold splitChar
    cases h : splitChar sep (xs ++ sep :: ys) with
    | nil => exact absurd h (splitChar_ne_nil sep _)
    | cons r rs =>
      have ih : (splitChar sep (xs ++ sep :: ys)).getLastD [] = ys :=
        getLastD_splitChar_append sep ys hys xs
      rw [h] at ih
      have hlen : 2 ≤ (splitChar sep (xs ++ sep :: ys)).length :=
        two_le_length_splitChar sep ys xs
      rw [h] at hlen
      have hrs : rs ≠ [] := by
        intro hcon
        rw [hcon] at hlen
        simp at hlen
      dsimp only
      by_cases hx : x = sep
      · rw [if_pos hx, List.getLastD_cons]
        exact ih
      · rw [if_neg hx, List.getLastD_cons]
        rw [List.getLastD_cons] at ih
        rw [getLastD_irrel rs hrs (x :: r) r]
        exact ih

/-- Appending `"/" ++ key` to any string and taking the final path
segment recovers `key`, provided `key` itself contains no slash. -/
theorem derivedObjectKey_append (pre key : String)
    (h : Char.ofNat 47 ∉ key.data) :
    derivedObjectKey (pre ++ "/" ++ key) = key := by
  unfold derivedObjectKey
  have hdata : (pre ++ "/" ++ key).data
      = (pre.data ++ [Char.ofNat 47]) ++ key.data := by
    simp [String.data_append]
  rw [hdata, List.append_assoc, List.singleton_append,
    getLastD_splitChar_append (Char.ofNat 47) key.data h pre.data]

/-! Helper lemmas about the enrichment step. -/

/-- Enrichment never alters the row it decorates. -/
theorem validateRow_row (check : String → Except String Bool) (sb : SoundboardRow) :
    (validateRow check sb).row = sb := by
  unfold validateRow
  cases check (derivedObjectKey sb.audioUrl) <;> rfl

/-- A throwing existence check degrades the flag to `false`. -/
theorem validateRow_fileExists_error (check : String → Except String Bool)
    (sb : SoundboardRow) (msg : String)
    (h : check (derivedObjectKey sb.audioUrl) = .error msg) :
    (validateRow check sb).fileExists = false := by
  unfold validateRow
  rw [h]

/-- A succeeding existence check is reported verbatim. -/
theorem validateRow_fileExists_ok (check : String → Except String Bool)
    (sb : SoundboardRow) (b : Bool)
    (h : check (derivedObjectKey sb.audioUrl) = .ok b) :
    (validateRow check sb).fileExists = b := by
  unfold validateRow
  rw [h]

/-! Concrete sample values used by the witnesses. -/

/-- A sample persisted row (object key `u1.mp3`). -/
def sampleRow1 : SoundboardRow :=
  { id := "id1", text := "halo", audioUrl := "https://storage.googleapis.com/bkt/u1.mp3",
    fileName := "u1.mp3", createdByEmail := "a@x.com", createdAt := 5, updatedAt := 5 }

/-- A second, more recent sample row (object key `u2.mp3`). -/
def sampleRow2 : SoundboardRow :=
  { id := "id2", text := "dunia", audioUrl := "https://storage.googleapis.com/bkt/u2.mp3",
    fileName := "u2.mp3", createdByEmail := "a@x.com", createdAt := 9, updatedAt := 9 }

/-- A sample store holding the two rows, oldest first. -/
def sampleDb : List SoundboardRow := [sampleRow1, sampleRow2]

/-- A storage stub whose existence check throws exactly for `u1.mp3`. -/
def checkFailU1 : String → Except String Bool :=
  fun k => if k == "u1.mp3" then .error "boom" else .ok true

/-- External dependencies that all succeed. -/
def depsOk : GcpDeps :=
  { tts := fun _ => .ok [7], save := fun _ _ => .ok (), bucketName := "bkt" }

/-- External dependencies whose speech synthesis fails. -/
def depsSynthFail : GcpDeps :=
  { tts := fun _ => .error "boom", save := fun _ _ => .ok (), bucketName := "bkt" }

/-! The claims. -/

/-- Claim C8: a Create call in which `title`, `text` or `email` is empty
or missing fails with status 400 and has no side effects at all — the
store is unchanged and no synthesis, upload or insert call is issued
(the effect trace is empty). -/
theorem postSoundboards_validation_no_side_effects
    (deps : GcpDeps) (uuid : String) (insertRes : Except String Unit)
    (newId : String) (now : Nat) (title text email : Option String)
    (db : List SoundboardRow)
    (h : strFalsy title = true ∨ strFalsy text = true ∨ strFalsy email = true) :
    postSoundboards deps uuid insertRes newId now title text email db
      = (400, db, []) := by
  rcases h with h | h | h <;> simp [postSoundboards, h]

/-- Witness for C8: a request with a missing title is rejected with 400
and an empty effect trace. -/
theorem postSoundboards_validation_no_side_effects_witness :
    postSoundboards depsOk "u1" (.ok ()) "id9" 3 none (some "halo") (some "a@x.com") sampleDb
      = (400, sampleDb, []) :=
  postSoundboards_validation_no_side_effects depsOk "u1" (.ok ()) "id9" 3
    none (some "halo") (some "a@x.com") sampleDb (Or.inl rfl)

/-- Claim C1: when the speech-synthesis step fails, the Create operation
answers 500 and the store is returned exactly as it was — the row count
is unchanged and no partial row exists; the only side effect attempted
was the synthesis call itself (no upload, no insert). -/
theorem postSoundboards_synthesis_failure_no_row
    (deps : GcpDeps) (uuid : String) (insertRes : Except String Unit)
    (newId : String) (now : Nat) (title text email : Option String)
    (db : List SoundboardRow) (e : String)
    (hT : strFalsy title = false) (hX : strFalsy text = false)
    (hE : strFalsy email = false)
    (hSynth : deps.tts (text.getD "") = .error e) :
    postSoundboards deps uuid insertRes newId now title text email db
      = (500, db, [Effect.synthCall (text.getD "")]) := by
  simp [postSoundboards, hT, hX, hE, generateSpeech, hSynth]

/-- Witness for C1: with a failing synthesizer a fully valid request
leaves the sample store untouched and answers 500. -/
theorem postSoundboards_synthesis_failure_no_row_witness :
    postSoundboards depsSynthFail "u9" (.ok ()) "id9" 3
      (some "Hello") (some "Halo dunia") (some "a@x.com") sampleDb
      = (500, sampleDb, [Effect.synthCall "Halo dunia"]) :=
  postSoundboards_synthesis_failure_no_row depsSynthFail "u9" (.ok ()) "id9" 3
    (some "Hello") (some "Halo dunia") (some "a@x.com") sampleDb "boom"
    rfl rfl rfl rfl

/-- Claim C2: when the owner has zero rows the listing answers 404 with
no data instead of succeeding with an empty list. -/
theorem getSoundboards_empty_is_404
    (check : String → Except String Bool) (email : String)
    (db : List SoundboardRow)
    (h : db.filter (fun r => r.createdByEmail == email) = []) :
    getSoundboards check email db = (404, []) := by
  have hs : findAllByEmailDesc db email = [] := by
    unfold findAllByEmailDesc
    rw [h]
    rfl
  simp [getSoundboards, hs]

/-- Witness for C2: an owner absent from the sample store gets 404. -/
theorem getSoundboards_empty_is_404_witness :
    getSoundboards checkFailU1 "nobody@x.com" sampleDb = (404, []) :=
  getSoundboards_empty_is_404 checkFailU1 "nobody@x.com" sampleDb (by decide)

/-- Claim C7 (refuted by the code): `GET /history/:id` never reaches its
200 or 404 branch — the handler's first step evaluates the undefined
identifier `History`, the thrown ReferenceError is forwarded to the
error middleware, and every request is answered 500. -/
theorem getHistoryById_always_500 (id : String) :
    middlewareStatus (getHistoryById id) = 500 ∧
    middlewareStatus (getHistoryById id) ≠ 200 ∧
    middlewareStatus (getHistoryById id) ≠ 404 := by
  have h500 : middlewareStatus (getHistoryById id) = 500 := rfl
  refine ⟨h500, ?_, ?_⟩
  · rw [h500]
    decide
  · rw [h500]
    decide

/-- Claim C10: with a non-empty comment and a successful insert, the
feedback ratings 0 and 5 are rejected with 400, the ratings 1 and 4 are
accepted with 201, and in general a rating is accepted exactly when it
lies in the closed interval from 1 to 4. -/
theorem postFeedback_rating_boundaries (comment : String) (k : Nat)
    (hc : comment ≠ "") :
    postFeedback (.ok k) (some comment) (some 0) = 400 ∧
    postFeedback (.ok k) (some comment) (some 5) = 400 ∧
    postFeedback (.ok k) (some comment) (some 1) = 201 ∧
    postFeedback (.ok k) (some comment) (some 4) = 201 ∧
    (∀ r : Int, postFeedback (.ok k) (some comment) (some r) = 201
      ↔ 1 ≤ r ∧ r ≤ 4) := by
  have hcb : (comment == "") = false := by
    simpa using hc
  refine ⟨?_, ?_, ?_, ?_, ?_⟩
  · simp [postFeedback, strFalsy, numFalsy, hcb]
  · simp [postFeedback, strFalsy, numFalsy, hcb]
  · simp [postFeedback, strFalsy, numFalsy, hcb]
  · simp [postFeedback, strFalsy, numFalsy, hcb]
  · intro r
    simp only [postFeedback, strFalsy, numFalsy, hcb, Bool.false_or]
    by_cases h0 : r = 0
    · subst h0
      simp
    · rw [if_neg (by simpa using h0)]
      by_cases hlo : r < 1
      · rw [if_pos (by simp [hlo])]
        constructor
        · intro hcon
          exact absurd hcon (by decide)
        · intro hr
          omega
      · by_cases hhi : r > 4
        · rw [if_pos (by simp [hhi])]
          constructor
          · intro hcon
            exact absurd hcon (by decide)
          · intro hr
            omega
        · rw [if_neg (by simp [hlo, hhi])]
          constructor
          · intro _
            omega
          · intro _
            rfl

/-- Witness for C10: the concrete boundary checks at comment `"nice"`. -/
theorem postFeedback_rating_boundaries_witness :
    postFeedback (.ok 1) (some "nice") (some 0) = 400 ∧
    postFeedback (.ok 1) (some "nice") (some 5) = 400 ∧
    postFeedback (.ok 1) (some "nice") (some 1) = 201 ∧
    postFeedback (.ok 1) (some "nice") (some 4) = 201 :=
  have h := postFeedback_rating_boundaries "nice" 1 (by decide)
  ⟨h.1, h.2.1, h.2.2.1, h.2.2.2.1⟩

/-- With ids unique in the store, erasing by id leaves no row carrying
that id. -/
theorem eraseP_by_id_clears (wanted : String) :
    ∀ db : List SoundboardRow, (db.map (fun r => r.id)).Nodup →
      ∀ r ∈ db.eraseP (fun r => r.id == wanted), r.id ≠ wanted := by
  intro db
  induction db with
  | nil => simp
  | cons a t ih =>
    intro hnd r hr
    rw [List.map_cons, List.nodup_cons] at hnd
    by_cases ha : a.id = wanted
    · rw [List.eraseP_cons_of_pos (by simpa using ha)] at hr
      intro hcon
      exact hnd.1 (List.mem_map.mpr ⟨r, hr, by rw [hcon, ha]⟩)
    · rw [List.eraseP_cons_of_neg (by simpa using ha)] at hr
      rcases List.mem_cons.mp hr with h | h
      · subst h
        exact ha
      · exact ih hnd.2 r h

/-- Claim C4: deleting an id that matches no row answers 404 and leaves
the store untouched with no side effect; deleting an existing id always
answers 200 and erases the row — for every outcome of the best-effort
storage delete, including failure — and with unique ids no row carrying
the id survives.  The trace shows the storage delete was attempted and
the row destroy ran regardless. -/
theorem deleteSoundboard_spec
    (delObj : String → Except String Unit) (wanted : String)
    (db : List SoundboardRow) :
    ((∀ r ∈ db, r.id ≠ wanted) →
        deleteSoundboard delObj wanted db = (404, db, [])) ∧
    (∀ sb, db.find? (fun r => r.id == wanted) = some sb →
        (deleteSoundboard delObj wanted db).1 = 200 ∧
        (deleteSoundboard delObj wanted db).2.1
          = db.eraseP (fun r => r.id == wanted) ∧
        (deleteSoundboard delObj wanted db).2.2
          = [Effect.objectDelete (derivedObjectKey sb.audioUrl),
             Effect.rowDestroy sb.id] ∧
        ((db.map (fun r => r.id)).Nodup →
          ∀ r ∈ (deleteSoundboard delObj wanted db).2.1, r.id ≠ wanted)) := by
  constructor
  · intro hnone
    have hfind : db.find? (fun r => r.id == wanted) = none :=
      List.find?_eq_none.mpr (fun x hx => by simpa using hnone x hx)
    simp [deleteSoundboard, hfind]
  · intro sb hfind
    have hd : deleteSoundboard delObj wanted db
        = (200, db.eraseP (fun r => r.id == wanted),
           [Effect.objectDelete (derivedObjectKey sb.audioUrl),
            Effect.rowDestroy sb.id]) := by
      unfold deleteSoundboard
      rw [hfind]
      dsimp only
      cases delObj (derivedObjectKey sb.audioUrl) <;> rfl
    refine ⟨by rw [hd], by rw [hd], by rw [hd], ?_⟩
    intro hnd r hr
    rw [hd] at hr
    exact eraseP_by_id_clears wanted db hnd r hr

/-- Witness for C4: on the sample store, deleting the unknown id `zzz`
leaves everything untouched, and deleting `id1` erases that row even
though the storage delete stub fails. -/
theorem deleteSoundboard_spec_witness :
    deleteSoundboard (fun _ => .error "no") "zzz" sampleDb = (404, sampleDb, []) ∧
    (deleteSoundboard (fun _ => .error "no") "id1" sampleDb).2.1 = [sampleRow2] :=
  ⟨(deleteSoundboard_spec (fun _ => .error "no") "zzz" sampleDb).1 (by decide),
   by
    rw [((deleteSoundboard_spec (fun _ => .error "no") "id1" sampleDb).2
      sampleRow1 (by decide)).2.1]
    decide⟩

/-- Claim C9: the listing for a nonempty owner answers 200; the final
response preserves, entry by entry, the order of the fetched rows; the
fetched rows are exactly (as a multiset) the rows whose
`createdByEmail` equals the requested email; and they are sorted by
`createdAt` descending. -/
theorem getSoundboards_order_and_membership
    (check : String → Except String Bool) (email : String)
    (db : List SoundboardRow)
    (h : findAllByEmailDesc db email ≠ []) :
    (getSoundboards check email db).1 = 200 ∧
    (getSoundboards check email db).2.map (fun e => e.row)
      = findAllByEmailDesc db email ∧
    (findAllByEmailDesc db email).Perm
      (db.filter (fun r => r.createdByEmail == email)) ∧
    List.Sorted createdDesc (findAllByEmailDesc db email) := by
  have hlen : (findAllByEmailDesc db email).length ≠ 0 := by
    simpa [List.length_eq_zero] using h
  refine ⟨?_, ?_, ?_, ?_⟩
  · simp [getSoundboards, hlen]
  · simp only [getSoundboards, if_neg hlen]
    rw [List.map_map]
    have : ((fun e : EnrichedSoundboard => e.row) ∘ validateRow check)
        = fun sb => sb := by
      funext sb
      exact validateRow_row check sb
    rw [this, List.map_id']
  · exact List.perm_insertionSort createdDesc _
  · exact List.sorted_insertionSort createdDesc _

/-- Witness for C9: the sample owner's listing is 200, keeps the fetched
order, and is the descending-by-`createdAt` arrangement of the two
owned rows. -/
theorem getSoundboards_order_and_membership_witness :
    (getSoundboards checkFailU1 "a@x.com" sampleDb).1 = 200 ∧
    (getSoundboards checkFailU1 "a@x.com" sampleDb).2.map (fun e => e.row)
      = findAllByEmailDesc sampleDb "a@x.com" :=
  have h := getSoundboards_order_and_membership checkFailU1 "a@x.com" sampleDb
    (by decide)
  ⟨h.1, h.2.1⟩

/-- Claim C3: when the storage existence check throws for the row at
position `i` of the fetched list, the listing still succeeds with 200,
the response is exactly the independent per-row enrichment of the
fetched rows (the one failure is contained, not propagated), the
failing row's `fileExists` is `false`, every entry keeps its row
unchanged, and any row whose own check succeeds receives that check's
verdict verbatim. -/
theorem getSoundboards_failure_containment
    (check : String → Except String Bool) (email : String)
    (db : List SoundboardRow) (i : Nat) (msg : String)
    (hi : i < (findAllByEmailDesc db email).length)
    (herr : check (derivedObjectKey
        ((findAllByEmailDesc db email).get ⟨i, hi⟩).audioUrl) = .error msg) :
    (getSoundboards check email db).1 = 200 ∧
    (getSoundboards check email db).2
      = (findAllByEmailDesc db email).map (validateRow check) ∧
    (validateRow check ((findAllByEmailDesc db email).get ⟨i, hi⟩)).fileExists
      = false ∧
    (∀ sb : SoundboardRow, (validateRow check sb).row = sb) ∧
    (∀ (sb : SoundboardRow) (b : Bool),
      check (derivedObjectKey sb.audioUrl) = .ok b →
      (validateRow check sb).fileExists = b) := by
  have hlen : ¬ (findAllByEmailDesc db email).length = 0 := by
    omega
  refine ⟨?_, ?_, ?_, ?_, ?_⟩
  · simp [getSoundboards, hlen]
  · simp [getSoundboards, hlen]
  · exact validateRow_fileExists_error check _ msg herr
  · exact validateRow_row check
  · exact validateRow_fileExists_ok check

/-- Witness for C3: on the sample store the check for `u1.mp3` (the
second entry of the descending listing) throws, yet the listing is 200
and that entry's flag is `false`. -/
theorem getSoundboards_failure_containment_witness :
    (getSoundboards checkFailU1 "a@x.com" sampleDb).1 = 200 ∧
    (validateRow checkFailU1
      ((findAllByEmailDesc sampleDb "a@x.com").get ⟨1, by decide⟩)).fileExists
      = false :=
  have h := getSoundboards_failure_containment checkFailU1 "a@x.com" sampleDb
    1 "boom" (by decide) rfl
  ⟨h.1, h.2.2.1⟩

/-- Claim C6: the Soundboard schema has no `title` attribute, so the
serialized row produced by `Soundboard.create` carries exactly the
schema attribute keys — `title` is not among them — and every entry of
a listing response carries only those keys plus `fileExists`, again
without `title`. -/
theorem soundboard_row_has_no_title
    (newId : String) (now : Nat) (inp : SoundboardCreateInput) :
    (Soundboard.create newId now inp).toJSON.map Prod.fst
      = soundboardAttributes ∧
    "title" ∉ soundboardAttributes ∧
    (∀ (check : String → Except String Bool) (email : String)
        (db : List SoundboardRow) (e : EnrichedSoundboard),
      e ∈ (getSoundboards check email db).2 →
      e.toJSON.map Prod.fst = soundboardAttributes ++ ["fileExists"] ∧
      "title" ∉ e.toJSON.map Prod.fst) := by
  refine ⟨rfl, by decide, ?_⟩
  intro check email db e _
  have hkeys : e.toJSON.map Prod.fst = soundboardAttributes ++ ["fileExists"] :=
    rfl
  refine ⟨hkeys, ?_⟩
  rw [hkeys]
  decide

/-- Witness for C6: a concrete enriched entry of the sample listing has
no `title` key. -/
theorem soundboard_row_has_no_title_witness :
    "title" ∉ (EnrichedSoundboard.mk sampleRow2 true).toJSON.map Prod.fst :=
  ((soundboard_row_has_no_title "id9" 3
      { text := "halo", title := "Hello", audioUrl := "u", fileName := "f",
        createdByEmail := "a@x.com" }).2.2 checkFailU1 "a@x.com" sampleDb
    ⟨sampleRow2, true⟩ (by decide)).2

/-- Case analysis of the delete handler: either the id matched no row
and nothing happened, or the matched row was erased after the
best-effort storage delete. -/
theorem deleteSoundboard_eq
    (delObj : String → Except String Unit) (wanted : String)
    (db0 : List SoundboardRow) :
    deleteSoundboard delObj wanted db0 = (404, db0, []) ∨
    ∃ sb, db0.find? (fun r => r.id == wanted) = some sb ∧
      deleteSoundboard delObj wanted db0
        = (200, db0.eraseP (fun r => r.id == wanted),
           [Effect.objectDelete (derivedObjectKey sb.audioUrl),
            Effect.rowDestroy sb.id]) := by
  unfold deleteSoundboard
  cases hfind : db0.find? (fun r => r.id == wanted) with
  | none => exact Or.inl rfl
  | some sb =>
    refine Or.inr ⟨sb, rfl, ?_⟩
    dsimp only
    cases delObj (derivedObjectKey sb.audioUrl) <;> rfl

/-- Every entry of a listing response wraps a row of the store. -/
theorem mem_getSoundboards_row_mem
    (check : String → Except String Bool) (email : String)
    (db0 : List SoundboardRow) (e : EnrichedSoundboard)
    (he : e ∈ (getSoundboards check email db0).2) : e.row ∈ db0 := by
  simp only [getSoundboards] at he
  split at he
  · simp at he
  · rcases List.mem_map.mp (by simpa using he) with ⟨sb, hsb, rfl⟩
    rw [validateRow_row]
    have hmem : sb ∈ db0.filter (fun r => r.createdByEmail == email) := by
      have := List.mem_insertionSort createdDesc
        (l := db0.filter (fun r => r.createdByEmail == email)) (x := sb)
      exact this.mp (by simpa [findAllByEmailDesc] using hsb)
    exact List.mem_of_mem_filter hmem

/-- Claim C5: a successful Create persists one new row whose `fileName`
is `<uuid>.mp3`, whose `audioUrl` is the public URL
`https://storage.googleapis.com/<bucket>/<fileName>`, and whose final
path segment — the key the GET and DELETE handlers re-derive through
`split("/").pop()` — is exactly `fileName`; and this consistency is an
invariant: both the delete operation and the listing enrichment only
ever hand back rows of the store they were given, so every row they
act on still satisfies `derivedObjectKey audioUrl = fileName`. -/
theorem soundboard_fileName_consistency
    (deps : GcpDeps) (uuid : String) (newId : String) (now : Nat)
    (title text email : Option String) (db : List SoundboardRow)
    (audioBuffer : List Nat)
    (hT : strFalsy title = false) (hX : strFalsy text = false)
    (hE : strFalsy email = false)
    (hSynth : deps.tts (text.getD "") = .ok audioBuffer)
    (hSave : deps.save (uuid ++ ".mp3") audioBuffer = .ok ())
    (hUuid : Char.ofNat 47 ∉ uuid.data) :
    (∃ row : SoundboardRow,
      (postSoundboards deps uuid (.ok ()) newId now title text email db).2.1
        = db ++ [row] ∧
      row.fileName = uuid ++ ".mp3" ∧
      row.audioUrl = "https://storage.googleapis.com/" ++ deps.bucketName
        ++ "/" ++ row.fileName ∧
      derivedObjectKey row.audioUrl = row.fileName) ∧
    (∀ (delObj : String → Except String Unit) (wanted : String)
        (db0 : List SoundboardRow),
      (∀ r ∈ db0, derivedObjectKey r.audioUrl = r.fileName) →
      ∀ r ∈ (deleteSoundboard delObj wanted db0).2.1,
        derivedObjectKey r.audioUrl = r.fileName) ∧
    (∀ (check : String → Except String Bool) (email0 : String)
        (db0 : List SoundboardRow),
      (∀ r ∈ db0, derivedObjectKey r.audioUrl = r.fileName) →
      ∀ e ∈ (getSoundboards check email0 db0).2,
        derivedObjectKey e.row.audioUrl = e.row.fileName) := by
  refine ⟨?_, ?_, ?_⟩
  · refine ⟨Soundboard.create newId now
      { text := text.getD "", title := title.getD "",
        audioUrl := "https://storage.googleapis.com/" ++ deps.bucketName
          ++ "/" ++ (uuid ++ ".mp3"),
        fileName := uuid ++ ".mp3", createdByEmail := email.getD "" },
      ?_, rfl, rfl, ?_⟩
    · simp [postSoundboards, hT, hX, hE, generateSpeech, hSynth,
        uploadToGCS, hSave]
    · have hk : Char.ofNat 47 ∉ (uuid ++ ".mp3").data := by
        rw [String.data_append]
        intro hmem
        rcases List.mem_append.mp hmem with hm | hm
        · exact hUuid hm
        · exact absurd hm (by decide)
      exact derivedObjectKey_append
        ("https://storage.googleapis.com/" ++ deps.bucketName) (uuid ++ ".mp3") hk
  · intro delObj wanted db0 hall r hr
    rcases deleteSoundboard_eq delObj wanted db0 with h | ⟨sb, _, h⟩
    · rw [h] at hr
      exact hall r hr
    · rw [h] at hr
      exact hall r (List.mem_of_mem_eraseP hr)
  · intro check email0 db0 hall e he
    exact hall e.row (mem_getSoundboards_row_mem check email0 db0 e he)

/-- Witness for C5: the concrete successful creation with uuid `u9` on
an empty store yields the consistent row. -/
theorem soundboard_fileName_consistency_witness :
    ∃ row : SoundboardRow,
      (postSoundboards depsOk "u9" (.ok ()) "id9" 3 (some "Hello")
        (some "Halo dunia") (some "a@x.com") []).2.1 = [] ++ [row] ∧
      row.fileName = "u9" ++ ".mp3" ∧
      row.audioUrl = "https://storage.googleapis.com/" ++ depsOk.bucketName
        ++ "/" ++ row.fileName ∧
      derivedObjectKey row.audioUrl = row.fileName :=
  (soundboard_fileName_consistency depsOk "u9" "id9" 3 (some "Hello")
    (some "Halo dunia") (some "a@x.com") [] [7] rfl rfl rfl rfl rfl
    (by decide)).1
